import Mathlib

/-!
# Product catalogue (`src/productCatalogue.js`)

A shallow embedding of the `Catalogue` class and proofs about its operations.

Conventions of the embedding:

* a JavaScript array is a `List`; `Array.prototype.find`, `filter`, `map`, `some`
  and `reduce` are `List.find?`, `List.filter`, `List.map`, `List.any` and `List.foldl`;
* a method that assigns to `this.products` returns the catalogue after the call next to
  its JavaScript return value; a method with no assignment in its body
  (`findProductById`, `checkReorders`, `speSearch`) is a plain function of the catalogue;
* `undefined` is `none`;
* a number stored in a product is a rational: the code only compares these numbers with
  `<=` and `>`, and on finite numbers the comparisons agree with the rationals;
* the price bound of a search is a `JsNumber`, which has the values `NaN`, `-Infinity`
  and `Infinity` next to the finite ones: the code tests the bound for truthiness, where
  `NaN` counts like `0`, and compares product prices with it;
* a thrown `Error` is `Except.error` carrying the message.
-/

deriving instance DecidableEq for Except

/-- Modelled from the spec: the `Product` class of `src/product.js`, which the test file
requires and constructs as `new Product(id, name, quantityInStock, reorderLevel, price)`
but which is not among the sources. A plain record of the five attributes. -/
structure Product where
  id : String
  name : String
  quantityInStock : ℚ
  reorderLevel : ℚ
  price : ℚ
deriving DecidableEq

/-- The argument of `batchAddProducts`: the code reads only `batch.products`; the test
builds it with a `type` tag as well. -/
structure Batch where
  type : String := "Batch"
  products : List Product
deriving DecidableEq

/-- The object returned by `checkReorders` and `speSearch`:
a `type` tag and the list `productIds`. -/
structure Report where
  type : String
  productIds : List String
deriving DecidableEq

/-- A JavaScript number as a search can receive it for its price bound: `NaN`, one of the
two infinities, or a finite value (`-0` is the finite value `0`). -/
inductive JsNumber where
  | nan
  | negInfinity
  | posInfinity
  | finite (value : ℚ)
deriving DecidableEq

/-- The comparison `x <= bound` of a finite number with a JavaScript number: false for
`NaN`, decided by the sign for an infinity. -/
def lessEqual (x : ℚ) : JsNumber → Bool
  | .nan => false
  | .negInfinity => false
  | .posInfinity => true
  | .finite b => decide (x ≤ b)

/-- The argument `neededObj` of `speSearch`: each of the two fields the code reads
may be missing. -/
structure Criteria where
  price : Option JsNumber := none
  keyword : Option String := none
deriving DecidableEq

/-- The class `Catalogue`: its two fields. -/
structure Catalogue where
  title : String
  products : List Product
deriving DecidableEq

/-- JavaScript truthiness of a possibly missing number: `undefined`, `0` (and `-0`) and
`NaN` are falsy, every other number is truthy. -/
def truthyNumber : Option JsNumber → Bool
  | none => false
  | some .nan => false
  | some .negInfinity => true
  | some .posInfinity => true
  | some (.finite b) => decide (b ≠ 0)

/-- JavaScript truthiness of a possibly missing string: `undefined` and `""` are falsy. -/
def truthyString : Option String → Bool
  | none => false
  | some k => decide (k ≠ "")

/-- `Array.prototype.filter` with a callback that acts on the catalogue: the elements are
visited from left to right, the catalogue left by one callback is the one the next
callback sees, and an element is kept when its callback returns `true`. -/
def filterWithState (f : Catalogue → Product → Bool × Catalogue) :
    Catalogue → List Product → List Product × Catalogue
  | c, [] => ([], c)
  | c, p :: ps =>
    let r := f c p
    let rest := filterWithState f r.2 ps
    (if r.1 then p :: rest.1 else rest.1, rest.2)

/-- `Array.prototype.filter` with a callback that may throw: the first error aborts. -/
def filterExcept (f : Product → Except String Bool) : List Product → Except String (List Product)
  | [] => .ok []
  | p :: ps =>
    match f p with
    | .error e => .error e
    | .ok keep =>
      match filterExcept f ps with
      | .error e => .error e
      | .ok rest => .ok (if keep then p :: rest else rest)

namespace Catalogue

/-- The constructor: `this.title = title; this.products = []`. -/
def new (title : String) : Catalogue :=
  { title := title, products := [] }

/-- `findProductById(id)`: `this.products.find((product) => id === product.id)`. -/
def findProductById (c : Catalogue) (id : String) : Option Product :=
  c.products.find? (fun product => decide (id = product.id))

/-- `addProduct(product)`: push and return `true` when `findProductById(product.id)` is
falsy (a product object is always truthy, so falsy means `undefined`), else `false`. -/
def addProduct (c : Catalogue) (product : Product) : Bool × Catalogue :=
  if (c.findProductById product.id).isNone then
    (true, { c with products := c.products ++ [product] })
  else
    (false, c)

/-- `removeProductById(id)`: when the lookup finds a product, `this.products` is replaced
by the products whose id differs from `id`; the lookup result is returned. -/
def removeProductById (c : Catalogue) (id : String) : Option Product × Catalogue :=
  let removedProduct := c.findProductById id
  if removedProduct.isSome then
    (removedProduct,
      { c with products := c.products.filter (fun product => decide (product.id ≠ id)) })
  else
    (removedProduct, c)

/-- `checkReorders()`: the ids of the products with `quantityInStock <= reorderLevel`. -/
def checkReorders (c : Catalogue) : Report :=
  let result : Report := { type := "Reorder", productIds := [] }
  { result with
    productIds :=
      (c.products.filter (fun p => decide (p.quantityInStock ≤ p.reorderLevel))).map
        (fun p => p.id) }

/-- `batchAddProducts(batch)`: throws `"Bad Batch"` when some candidate's id is found in
the catalogue; otherwise the candidates with `quantityInStock > 0` go through a second
`filter` whose callback calls `addProduct` and keeps every element, and the length of
what is left is counted by `reduce`. The catalogue after the call is returned in
both cases. -/
def batchAddProducts (c : Catalogue) (batch : Batch) : Except String Nat × Catalogue :=
  let productIDClash :=
    batch.products.any (fun product => decide (c.findProductById product.id ≠ none))
  if productIDClash then
    (.error "Bad Batch", c)
  else
    let added :=
      filterWithState (fun c p => (true, (c.addProduct p).2)) c
        (batch.products.filter (fun product => decide (product.quantityInStock > 0)))
    let noProductsAdded := added.1.foldl (fun acc _ => acc + 1) 0
    (.ok noProductsAdded, added.2)

/-- `speSearch(neededObj)`. The parameter `search` is `String.prototype.search`
(`search name keyword` is `name.search(keyword)`: an index, `-1` for no match, or a
thrown error). The closing brace of the `else if` block is inside a comment in the
source, so `return result` belongs to the keyword branch: the price branch assigns
`result.productIds` and then reaches the end of the function body, which returns
`undefined`, and so does a call with neither field truthy. -/
def speSearch (search : String → String → Except String Int) (c : Catalogue)
    (neededObj : Criteria) : Except String (Option Report) :=
  let result : Report := { type := "Search", productIds := [] }
  if truthyNumber neededObj.price then
    let _assigned : Report :=
      { result with
        productIds :=
          (c.products.filter
            (fun p => lessEqual p.price (neededObj.price.getD .nan))).map (fun p => p.id) }
    .ok none
  else if truthyString neededObj.keyword then
    match filterExcept
        (fun p => (search p.name (neededObj.keyword.getD "")).map (fun i => decide (i ≥ 0)))
        c.products with
    | .error e => .error e
    | .ok kept => .ok (some { result with productIds := kept.map (fun p => p.id) })
  else
    .ok none

/-- One call of a mutating method. -/
inductive Call where
  | addProduct (product : Product)
  | removeProductById (id : String)
  | batchAddProducts (batch : Batch)

/-- The catalogue after one call (whatever the call returned or threw). -/
def step (c : Catalogue) : Call → Catalogue
  | .addProduct product => (c.addProduct product).2
  | .removeProductById id => (c.removeProductById id).2
  | .batchAddProducts batch => (c.batchAddProducts batch).2

/-- The catalogue after a sequence of calls, made in order. -/
def run (c : Catalogue) (calls : List Call) : Catalogue :=
  calls.foldl step c

/-- The ids of the products, in collection order. -/
def ids (c : Catalogue) : List String :=
  c.products.map (fun p => p.id)

end Catalogue

/-- The catalogue of the tests of `speSearch`: the outer `beforeEach` adds A123, A124 and
A125, the inner one passes B123, B124 and B125 to `batchAddProducts`. -/
def Catalogue.searchFixture : Catalogue :=
  (Catalogue.new "Test Catalogue").run
    [.addProduct ⟨"A123", "Product 1", 100, 10, 10⟩,
      .addProduct ⟨"A124", "Product 2", 100, 10, 10⟩,
      .addProduct ⟨"A125", "Product 3", 100, 10, 10⟩,
      .batchAddProducts
        { type := "Search",
          products := [⟨"B123", "shoulder bag", 100, 10, 10⟩, ⟨"B124", "shoes", 100, 10, 25⟩,
            ⟨"B125", "shampoo", 199, 20, 46⟩] }]

/-- Whether the pattern character `pc` accepts the character `ch`: the wildcard `.`
accepts every character but the four line terminators (code points 10, 13, 8232, 8233),
any other pattern character accepts itself only (case-sensitive). -/
def patternCharAccepts (pc ch : Char) : Bool :=
  if pc = '.' then
    decide (ch.toNat ≠ 10 ∧ ch.toNat ≠ 13 ∧ ch.toNat ≠ 8232 ∧ ch.toNat ≠ 8233)
  else
    decide (pc = ch)

/-- Whether the pattern matches a prefix of the text, character by character. -/
def matchesAt : List Char → List Char → Bool
  | [], _ => true
  | _ :: _, [] => false
  | pc :: pcs, ch :: chs => patternCharAccepts pc ch && matchesAt pcs chs

/-- The first position of the text at which the pattern matches, if there is one. -/
def firstMatchIndex (pattern : List Char) : List Char → Option Nat
  | [] => if matchesAt pattern [] then some 0 else none
  | ch :: chs =>
    if matchesAt pattern (ch :: chs) then some 0
    else (firstMatchIndex pattern chs).map (fun i => i + 1)

/-- A model of the built-in `String.prototype.search`, as `name.search(keyword)`, for the
keywords made of ordinary characters and the wildcard `.` only (the keyword is compiled to
a regular expression; with no other metacharacter in it the expression is a sequence of
one-character matchers and compiling cannot fail): the index of the first match, `-1`
when there is none. The model is for names and keywords of characters below code point
65536, where an index counts characters as it counts UTF-16 units. Keywords with other
metacharacters are outside this model: the built-in gives them their regular-expression
meaning or throws a `SyntaxError`, the model reads them as ordinary characters. -/
def stringSearch (name keyword : String) : Except String Int :=
  match firstMatchIndex keyword.data name.data with
  | some i => .ok (i : Int)
  | none => .ok (-1)

/-- The wording of the specification for a batch that repeats an id: of the candidates
with one id only the first is kept, the order of the kept ones is unchanged. -/
def keepFirstOfEachId : List Product → List Product
  | [] => []
  | p :: ps => p :: (keepFirstOfEachId ps).filter (fun q => decide (q.id ≠ p.id))

/-- The catalogue of the tests of `batchAddProducts`: A123, A124 and A125 added by the
outer `beforeEach`. -/
def Catalogue.batchFixture : Catalogue :=
  (Catalogue.new "Test Catalogue").run
    [.addProduct ⟨"A123", "Product 1", 100, 10, 10⟩,
      .addProduct ⟨"A124", "Product 2", 100, 10, 10⟩,
      .addProduct ⟨"A125", "Product 3", 100, 10, 10⟩]

/-! ## Auxiliary facts -/

namespace Catalogue

theorem findProductById_eq_none_iff (c : Catalogue) (id : String) :
    c.findProductById id = none ↔ ∀ q ∈ c.products, q.id ≠ id := by
  unfold findProductById
  rw [List.find?_eq_none]
  constructor
  · intro h q hq e
    exact h q hq (by simp [e])
  · intro h q hq
    have := h q hq
    simpa using fun e => this e.symm

theorem findProductById_some_id (c : Catalogue) (id : String) (p : Product)
    (h : c.findProductById id = some p) : p.id = id := by
  unfold findProductById at h
  have := List.find?_some h
  exact (of_decide_eq_true this).symm

theorem findProductById_some_mem (c : Catalogue) (id : String) (p : Product)
    (h : c.findProductById id = some p) : p ∈ c.products := by
  unfold findProductById at h
  exact List.mem_of_find?_eq_some h

theorem findProductById_eq_some_iff (c : Catalogue) (id : String) (p : Product) :
    c.findProductById id = some p ↔
      p.id = id ∧ ∃ l₁ l₂, c.products = l₁ ++ p :: l₂ ∧ ∀ q ∈ l₁, q.id ≠ id := by
  unfold findProductById
  rw [List.find?_eq_some]
  constructor
  · rintro ⟨hp, l₁, l₂, hsplit, hbefore⟩
    refine ⟨(of_decide_eq_true hp).symm, l₁, l₂, hsplit, ?_⟩
    intro q hq e
    have := hbefore q hq
    simp [e] at this
  · rintro ⟨hp, l₁, l₂, hsplit, hbefore⟩
    refine ⟨decide_eq_true hp.symm, l₁, l₂, hsplit, ?_⟩
    intro q hq
    have := hbefore q hq
    simpa using fun e => this e.symm

theorem filter_ne_id_eq_self (l : List Product) (id : String) (h : ∀ q ∈ l, q.id ≠ id) :
    l.filter (fun product => decide (product.id ≠ id)) = l := by
  rw [List.filter_eq_self]
  intro q hq
  exact decide_eq_true (h q hq)

theorem eq_of_id_eq (l : List Product) (h : l.Pairwise (fun p q => p.id ≠ q.id))
    (p q : Product) (hp : p ∈ l) (hq : q ∈ l) (e : p.id = q.id) : p = q := by
  by_contra hne
  have hsymm : Symmetric (fun p q : Product => p.id ≠ q.id) := fun _ _ hab => Ne.symm hab
  exact List.Pairwise.forall hsymm h hp hq hne e

theorem not_mem_ids_iff (c : Catalogue) (id : String) :
    id ∉ c.ids ↔ ∀ q ∈ c.products, q.id ≠ id := by
  simp [ids]

theorem addProduct_products (c : Catalogue) (p : Product) :
    (c.addProduct p).2.products =
      if c.findProductById p.id = none then c.products ++ [p] else c.products := by
  unfold addProduct
  cases h : c.findProductById p.id <;> simp

theorem addProduct_title (c : Catalogue) (p : Product) :
    (c.addProduct p).2.title = c.title := by
  unfold addProduct
  split <;> rfl

theorem nodup_addProduct (c : Catalogue) (p : Product) (h : c.ids.Nodup) :
    (c.addProduct p).2.ids.Nodup := by
  unfold ids at *
  rw [addProduct_products]
  split
  · rename_i hnone
    rw [findProductById_eq_none_iff] at hnone
    rw [List.map_append, List.nodup_append]
    refine ⟨h, by simp, ?_⟩
    intro a ha hb
    simp only [List.map_cons, List.map_nil, List.mem_singleton] at hb
    obtain ⟨q, hq, rfl⟩ := List.mem_map.mp ha
    exact hnone q hq hb
  · exact h

theorem nodup_removeProductById (c : Catalogue) (id : String) (h : c.ids.Nodup) :
    (c.removeProductById id).2.ids.Nodup := by
  unfold removeProductById
  simp only
  split
  · exact h.sublist (List.Sublist.map _ (List.filter_sublist _))
  · exact h

theorem nodup_filterWithState_addProduct (ps : List Product) :
    ∀ c : Catalogue, c.ids.Nodup →
      (filterWithState (fun c p => (true, (c.addProduct p).2)) c ps).2.ids.Nodup := by
  induction ps with
  | nil => intro c h; exact h
  | cons p ps ih =>
    intro c h
    simp only [filterWithState]
    exact ih _ (nodup_addProduct c p h)

theorem nodup_batchAddProducts (c : Catalogue) (batch : Batch) (h : c.ids.Nodup) :
    (c.batchAddProducts batch).2.ids.Nodup := by
  unfold batchAddProducts
  simp only
  split
  · exact h
  · exact nodup_filterWithState_addProduct _ c h

theorem nodup_step (c : Catalogue) (call : Call) (h : c.ids.Nodup) :
    (c.step call).ids.Nodup := by
  cases call with
  | addProduct p => exact nodup_addProduct c p h
  | removeProductById id => exact nodup_removeProductById c id h
  | batchAddProducts b => exact nodup_batchAddProducts c b h

theorem nodup_run (calls : List Call) :
    ∀ c : Catalogue, c.ids.Nodup → (c.run calls).ids.Nodup := by
  induction calls with
  | nil => intro c h; exact h
  | cons call calls ih =>
    intro c h
    exact ih _ (nodup_step c call h)

end Catalogue

/-! ## The claims -/

/-- C1. Uniqueness invariant: in every catalogue reached from a freshly constructed one by
a finite sequence of `addProduct`, `removeProductById` and `batchAddProducts` calls
(failing batches and batches with repeated ids included), two products at different
positions of the collection have different ids. -/
theorem Catalogue.unique_ids_of_reachable (title : String) (calls : List Catalogue.Call) :
    ((Catalogue.new title).run calls).products.Pairwise (fun p q => p.id ≠ q.id) := by
  have h := Catalogue.nodup_run calls (Catalogue.new title) (by simp [Catalogue.ids, Catalogue.new])
  unfold Catalogue.ids at h
  exact (List.pairwise_map.mp h)

/-- C2. Batch atomicity: when `batchAddProducts` throws, the products collection after
the call is the collection before the call, so no candidate of the failing batch has
been inserted, whatever its position in the batch. -/
theorem Catalogue.batchAddProducts_atomic (c : Catalogue) (batch : Batch) (e : String)
    (hfail : (c.batchAddProducts batch).1 = .error e) :
    (c.batchAddProducts batch).2.products = c.products := by
  unfold Catalogue.batchAddProducts at hfail ⊢
  simp only at hfail ⊢
  split
  · rfl
  · rename_i hclash
    rw [if_neg hclash] at hfail
    cases hfail

/-- Witness for C2: the batch of the test (A200, A201, then the clashing A123). -/
theorem Catalogue.batchAddProducts_atomic_witness :
    (Catalogue.batchAddProducts
        ⟨"Test Catalogue", [⟨"A123", "Product 1", 100, 10, 10⟩, ⟨"A124", "Product 2", 100, 10, 10⟩]⟩
        { products := [⟨"A200", "Product 6", 100, 10, 10⟩, ⟨"A201", "Product 7", 100, 10, 25⟩,
            ⟨"A123", "Product 9", 0, 10, 10⟩] }).1 = .error "Bad Batch" ∧
    (Catalogue.batchAddProducts
        ⟨"Test Catalogue", [⟨"A123", "Product 1", 100, 10, 10⟩, ⟨"A124", "Product 2", 100, 10, 10⟩]⟩
        { products := [⟨"A200", "Product 6", 100, 10, 10⟩, ⟨"A201", "Product 7", 100, 10, 25⟩,
            ⟨"A123", "Product 9", 0, 10, 10⟩] }).2.products =
      [⟨"A123", "Product 1", 100, 10, 10⟩, ⟨"A124", "Product 2", 100, 10, 10⟩] :=
  ⟨by decide, Catalogue.batchAddProducts_atomic _ _ "Bad Batch" (by decide)⟩

/-- C3. `batchAddProducts` throws, and then with the message "Bad Batch", exactly when some
candidate has the id of a product of the catalogue. Stock plays no part (a clashing
candidate with zero stock makes the batch fail), candidates are not compared with each
other (without a clash against the catalogue the call returns a number), and the empty
batch never fails. -/
theorem Catalogue.batchAddProducts_fails_iff (c : Catalogue) (batch : Batch) :
    ((c.batchAddProducts batch).1 = .error "Bad Batch" ↔
        ∃ p ∈ batch.products, ∃ q ∈ c.products, p.id = q.id) ∧
      (∀ e, (c.batchAddProducts batch).1 = .error e → e = "Bad Batch") ∧
      (∀ p ∈ batch.products, p.quantityInStock = 0 → (∃ q ∈ c.products, p.id = q.id) →
        (c.batchAddProducts batch).1 = .error "Bad Batch") ∧
      ((∀ p ∈ batch.products, ∀ q ∈ c.products, p.id ≠ q.id) →
        ∃ n, (c.batchAddProducts batch).1 = .ok n) ∧
      (batch.products = [] → ∃ n, (c.batchAddProducts batch).1 = .ok n) := by
  have hclash : (batch.products.any
        (fun product => decide (c.findProductById product.id ≠ none)) = true) ↔
      ∃ p ∈ batch.products, ∃ q ∈ c.products, p.id = q.id := by
    rw [List.any_eq_true]
    constructor
    · rintro ⟨p, hp, hfound⟩
      have hne : c.findProductById p.id ≠ none := of_decide_eq_true hfound
      rw [Ne, Catalogue.findProductById_eq_none_iff] at hne
      push_neg at hne
      obtain ⟨q, hq, e⟩ := hne
      exact ⟨p, hp, q, hq, e.symm⟩
    · rintro ⟨p, hp, q, hq, e⟩
      refine ⟨p, hp, decide_eq_true ?_⟩
      rw [Ne, Catalogue.findProductById_eq_none_iff]
      push_neg
      exact ⟨q, hq, e.symm⟩
  have hiff : (c.batchAddProducts batch).1 = .error "Bad Batch" ↔
      ∃ p ∈ batch.products, ∃ q ∈ c.products, p.id = q.id := by
    rw [← hclash]
    unfold Catalogue.batchAddProducts
    simp only
    split
    · rename_i h; exact ⟨fun _ => h, fun _ => rfl⟩
    · rename_i h; exact ⟨fun he => (by cases he), fun hc => absurd hc h⟩
  have hok : (¬ ∃ p ∈ batch.products, ∃ q ∈ c.products, p.id = q.id) →
      ∃ n, (c.batchAddProducts batch).1 = .ok n := by
    intro hno
    rw [← hclash] at hno
    unfold Catalogue.batchAddProducts
    simp only
    rw [if_neg hno]
    exact ⟨_, rfl⟩
  refine ⟨hiff, ?_, ?_, ?_, ?_⟩
  · intro e he
    unfold Catalogue.batchAddProducts at he
    simp only at he
    split at he
    · simpa using he.symm
    · cases he
  · intro p hp _ ⟨q, hq, e⟩
    exact hiff.mpr ⟨p, hp, q, hq, e⟩
  · intro hno
    apply hok
    rintro ⟨p, hp, q, hq, e⟩
    exact hno p hp q hq e
  · intro hnil
    apply hok
    rw [hnil]
    simp

/-- Witness for C3: two candidates sharing the id A200, absent from the catalogue: the
call returns; a zero-stock candidate with the id A123 of a catalogue product: the
call throws. -/
theorem Catalogue.batchAddProducts_fails_iff_witness :
    (Catalogue.batchAddProducts ⟨"Test Catalogue", [⟨"A123", "Product 1", 100, 10, 10⟩]⟩
        { products := [⟨"A200", "Product 6", 100, 10, 10⟩,
            ⟨"A200", "Product 7", 100, 10, 25⟩] }).1 = .ok 2 ∧
      (Catalogue.batchAddProducts ⟨"Test Catalogue", [⟨"A123", "Product 1", 100, 10, 10⟩]⟩
        { products := [⟨"A123", "Product 9", 0, 10, 10⟩] }).1 = .error "Bad Batch" :=
  ⟨by decide,
    (Catalogue.batchAddProducts_fails_iff
        ⟨"Test Catalogue", [⟨"A123", "Product 1", 100, 10, 10⟩]⟩
        { products := [⟨"A123", "Product 9", 0, 10, 10⟩] }).1.mpr
      ⟨_, List.mem_singleton.mpr rfl, _, List.mem_singleton.mpr rfl, rfl⟩⟩

/-- C4. `addProduct(p)`: when some product of the catalogue has the id of `p` the call
returns `false` and leaves the catalogue as it was; otherwise it returns `true` and the
collection afterwards is the previous one followed by `p`. -/
theorem Catalogue.addProduct_spec (c : Catalogue) (p : Product) :
    ((∃ q ∈ c.products, q.id = p.id) →
        (c.addProduct p).1 = false ∧ (c.addProduct p).2.products = c.products) ∧
      ((¬ ∃ q ∈ c.products, q.id = p.id) →
        (c.addProduct p).1 = true ∧ (c.addProduct p).2.products = c.products ++ [p]) := by
  constructor
  · rintro ⟨q, hq, e⟩
    have hne : c.findProductById p.id ≠ none := by
      rw [Ne, Catalogue.findProductById_eq_none_iff]
      push_neg
      exact ⟨q, hq, e⟩
    unfold Catalogue.addProduct
    cases h : c.findProductById p.id with
    | none => exact absurd h hne
    | some r => simp
  · intro hno
    have hnone : c.findProductById p.id = none := by
      rw [Catalogue.findProductById_eq_none_iff]
      intro q hq e
      exact hno ⟨q, hq, e⟩
    unfold Catalogue.addProduct
    simp [hnone]

/-- Witness for C4: adding A124 twice, first to a catalogue that holds only A123. -/
theorem Catalogue.addProduct_spec_witness :
    ((Catalogue.addProduct ⟨"Test Catalogue", [⟨"A123", "Product 1", 100, 10, 10⟩]⟩
          ⟨"A124", "Product 2", 100, 10, 10⟩).1 = true ∧
        (Catalogue.addProduct ⟨"Test Catalogue", [⟨"A123", "Product 1", 100, 10, 10⟩]⟩
          ⟨"A124", "Product 2", 100, 10, 10⟩).2.products =
          [⟨"A123", "Product 1", 100, 10, 10⟩] ++ [⟨"A124", "Product 2", 100, 10, 10⟩]) ∧
      ((Catalogue.addProduct
          ⟨"Test Catalogue", [⟨"A123", "Product 1", 100, 10, 10⟩, ⟨"A124", "Product 2", 100, 10, 10⟩]⟩
          ⟨"A124", "Another", 5, 1, 3⟩).1 = false ∧
        (Catalogue.addProduct
          ⟨"Test Catalogue", [⟨"A123", "Product 1", 100, 10, 10⟩, ⟨"A124", "Product 2", 100, 10, 10⟩]⟩
          ⟨"A124", "Another", 5, 1, 3⟩).2.products =
          [⟨"A123", "Product 1", 100, 10, 10⟩, ⟨"A124", "Product 2", 100, 10, 10⟩]) :=
  ⟨(Catalogue.addProduct_spec _ _).2 (by decide),
    (Catalogue.addProduct_spec _ _).1 (by decide)⟩

/-- C5. `removeProductById(id)` on a catalogue with pairwise distinct ids that holds a
product with that id: the call returns that product, and the collection afterwards is the
previous one with that single product taken out, one shorter, the rest in the same
order. -/
theorem Catalogue.removeProductById_present (c : Catalogue) (id : String)
    (hdistinct : c.products.Pairwise (fun p q => p.id ≠ q.id))
    (hpresent : ∃ p ∈ c.products, p.id = id) :
    ∃ p l₁ l₂, p.id = id ∧ c.products = l₁ ++ p :: l₂ ∧
      (c.removeProductById id).1 = some p ∧
      (c.removeProductById id).2.products = l₁ ++ l₂ ∧
      (c.removeProductById id).2.products.length + 1 = c.products.length := by
  obtain ⟨p₀, hp₀, e₀⟩ := hpresent
  have hne : c.findProductById id ≠ none := by
    rw [Ne, Catalogue.findProductById_eq_none_iff]
    push_neg
    exact ⟨p₀, hp₀, e₀⟩
  obtain ⟨p, hfind⟩ := Option.ne_none_iff_exists'.mp hne
  obtain ⟨hpid, l₁, l₂, hsplit, hbefore⟩ :=
    (Catalogue.findProductById_eq_some_iff c id p).mp hfind
  have hafter : ∀ q ∈ l₂, q.id ≠ id := by
    rw [hsplit] at hdistinct
    have h2 := (List.pairwise_append.mp hdistinct).2.1
    intro q hq e
    exact (List.pairwise_cons.mp h2).1 q hq (hpid.trans e.symm)
  have hproducts : (c.removeProductById id).2.products = l₁ ++ l₂ := by
    unfold Catalogue.removeProductById
    simp only [hfind, Option.isSome_some, if_true]
    rw [hsplit, List.filter_append, List.filter_cons_of_neg (by simp [hpid]),
      Catalogue.filter_ne_id_eq_self l₁ id hbefore, Catalogue.filter_ne_id_eq_self l₂ id hafter]
  refine ⟨p, l₁, l₂, hpid, hsplit, ?_, hproducts, ?_⟩
  · unfold Catalogue.removeProductById
    simp [hfind]
  · rw [hproducts, hsplit]
    simp only [List.length_append, List.length_cons]
    omega

/-- Witness for C5: removing A124 from the catalogue A123, A124, A125 of the test. -/
theorem Catalogue.removeProductById_present_witness :
    ∃ p l₁ l₂, p.id = "A124" ∧
      [(⟨"A123", "Product 1", 100, 10, 10⟩ : Product), ⟨"A124", "Product 2", 100, 10, 10⟩,
        ⟨"A125", "Product 3", 100, 10, 10⟩] = l₁ ++ p :: l₂ ∧
      (Catalogue.removeProductById
        ⟨"Test Catalogue", [⟨"A123", "Product 1", 100, 10, 10⟩,
          ⟨"A124", "Product 2", 100, 10, 10⟩, ⟨"A125", "Product 3", 100, 10, 10⟩]⟩
        "A124").1 = some p ∧
      (Catalogue.removeProductById
        ⟨"Test Catalogue", [⟨"A123", "Product 1", 100, 10, 10⟩,
          ⟨"A124", "Product 2", 100, 10, 10⟩, ⟨"A125", "Product 3", 100, 10, 10⟩]⟩
        "A124").2.products = l₁ ++ l₂ ∧
      (Catalogue.removeProductById
        ⟨"Test Catalogue", [⟨"A123", "Product 1", 100, 10, 10⟩,
          ⟨"A124", "Product 2", 100, 10, 10⟩, ⟨"A125", "Product 3", 100, 10, 10⟩]⟩
        "A124").2.products.length + 1 = 3 :=
  Catalogue.removeProductById_present
    ⟨"Test Catalogue", [⟨"A123", "Product 1", 100, 10, 10⟩,
      ⟨"A124", "Product 2", 100, 10, 10⟩, ⟨"A125", "Product 3", 100, 10, 10⟩]⟩
    "A124" (by decide) (by decide)

/-- C6. Find/remove consistency: when `removeProductById(id)` returns a product,
`findProductById(id)` on the catalogue it leaves returns `undefined`. -/
theorem Catalogue.find_after_remove (c : Catalogue) (id : String) (p : Product)
    (hremoved : (c.removeProductById id).1 = some p) :
    (c.removeProductById id).2.findProductById id = none := by
  have hfind : c.findProductById id = some p := by
    unfold Catalogue.removeProductById at hremoved
    simp only at hremoved
    split at hremoved <;> exact hremoved
  rw [Catalogue.findProductById_eq_none_iff]
  unfold Catalogue.removeProductById
  simp only [hfind, Option.isSome_some, if_true]
  intro q hq
  exact of_decide_eq_true (List.mem_filter.mp hq).2

/-- Witness for C6: the test removes A123 and then looks it up. -/
theorem Catalogue.find_after_remove_witness :
    (Catalogue.removeProductById
        ⟨"Test Catalogue", [⟨"A123", "Product 1", 100, 10, 10⟩,
          ⟨"A124", "Product 2", 100, 10, 10⟩, ⟨"A125", "Product 3", 100, 10, 10⟩]⟩
        "A123").1 = some ⟨"A123", "Product 1", 100, 10, 10⟩ ∧
      (Catalogue.removeProductById
        ⟨"Test Catalogue", [⟨"A123", "Product 1", 100, 10, 10⟩,
          ⟨"A124", "Product 2", 100, 10, 10⟩, ⟨"A125", "Product 3", 100, 10, 10⟩]⟩
        "A123").2.findProductById "A123" = none :=
  ⟨by decide, Catalogue.find_after_remove _ "A123" ⟨"A123", "Product 1", 100, 10, 10⟩ (by decide)⟩

/-- C7. `removeProductById(id)` when no product of the catalogue has that id: the call
returns `undefined` and the catalogue is left as it was. (The method has no throwing
path: its result is a plain value.) -/
theorem Catalogue.removeProductById_absent (c : Catalogue) (id : String)
    (habsent : ∀ q ∈ c.products, q.id ≠ id) :
    (c.removeProductById id).1 = none ∧ (c.removeProductById id).2.products = c.products ∧
      (c.removeProductById id).2 = c := by
  have hnone := (Catalogue.findProductById_eq_none_iff c id).mpr habsent
  unfold Catalogue.removeProductById
  simp [hnone]

/-- Witness for C7: the test removes the absent id A321. -/
theorem Catalogue.removeProductById_absent_witness :
    (Catalogue.removeProductById
        ⟨"Test Catalogue", [⟨"A123", "Product 1", 100, 10, 10⟩,
          ⟨"A124", "Product 2", 100, 10, 10⟩]⟩ "A321").1 = none ∧
      (Catalogue.removeProductById
        ⟨"Test Catalogue", [⟨"A123", "Product 1", 100, 10, 10⟩,
          ⟨"A124", "Product 2", 100, 10, 10⟩]⟩ "A321").2.products =
        [⟨"A123", "Product 1", 100, 10, 10⟩, ⟨"A124", "Product 2", 100, 10, 10⟩] ∧
      (Catalogue.removeProductById
        ⟨"Test Catalogue", [⟨"A123", "Product 1", 100, 10, 10⟩,
          ⟨"A124", "Product 2", 100, 10, 10⟩]⟩ "A321").2 =
        ⟨"Test Catalogue", [⟨"A123", "Product 1", 100, 10, 10⟩,
          ⟨"A124", "Product 2", 100, 10, 10⟩]⟩ :=
  Catalogue.removeProductById_absent _ "A321" (by decide)

/-- C8. `findProductById(id)` returns the first product, in collection order, whose id is
the argument: it returns `p` exactly when `p` has that id and sits in the collection
behind products that all have another id; and it returns `undefined` exactly when no
product of the collection has that id. (The method is a function of the catalogue alone:
it has no throwing path and assigns nothing.) -/
theorem Catalogue.findProductById_spec (c : Catalogue) (id : String) :
    (∀ p, c.findProductById id = some p ↔
        ∃ l₁ l₂, c.products = l₁ ++ p :: l₂ ∧ p.id = id ∧ ∀ q ∈ l₁, q.id ≠ id) ∧
      (c.findProductById id = none ↔ ∀ q ∈ c.products, q.id ≠ id) ∧
      ((∃ q ∈ c.products, q.id = id) → ∃ p, c.findProductById id = some p) := by
  refine ⟨?_, Catalogue.findProductById_eq_none_iff c id, ?_⟩
  · intro p
    rw [Catalogue.findProductById_eq_some_iff]
    constructor
    · rintro ⟨hp, l₁, l₂, hsplit, hbefore⟩
      exact ⟨l₁, l₂, hsplit, hp, hbefore⟩
    · rintro ⟨l₁, l₂, hsplit, hp, hbefore⟩
      exact ⟨hp, l₁, l₂, hsplit, hbefore⟩
  · rintro ⟨q, hq, e⟩
    apply Option.ne_none_iff_exists'.mp
    rw [Ne, Catalogue.findProductById_eq_none_iff]
    push_neg
    exact ⟨q, hq, e⟩

/-- Witness for C8: the two lookups of the test, A123 (found, named "Product 1") and A321
(not found). -/
theorem Catalogue.findProductById_spec_witness :
    Catalogue.findProductById
        ⟨"Test Catalogue", [⟨"A123", "Product 1", 100, 10, 10⟩,
          ⟨"A124", "Product 2", 100, 10, 10⟩, ⟨"A125", "Product 3", 100, 10, 10⟩]⟩ "A123" =
        some ⟨"A123", "Product 1", 100, 10, 10⟩ ∧
      Catalogue.findProductById
        ⟨"Test Catalogue", [⟨"A123", "Product 1", 100, 10, 10⟩,
          ⟨"A124", "Product 2", 100, 10, 10⟩, ⟨"A125", "Product 3", 100, 10, 10⟩]⟩ "A321" =
        none :=
  ⟨((Catalogue.findProductById_spec _ "A123").1 _).mpr
      ⟨[], [⟨"A124", "Product 2", 100, 10, 10⟩, ⟨"A125", "Product 3", 100, 10, 10⟩], rfl, rfl,
        fun _ h => absurd h (List.not_mem_nil _)⟩,
    (Catalogue.findProductById_spec _ "A321").2.1.mpr (by decide)⟩

/-- C9. `checkReorders()` returns a result tagged "Reorder" whose `productIds` is the list
of ids, in collection order, of the products with `quantityInStock <= reorderLevel`. The
bound is inclusive: a product with stock equal to its reorder level is listed; a product
with stock above its reorder level is not among the products listed, and when ids are
pairwise distinct its id is not in the list. -/
theorem Catalogue.checkReorders_spec (c : Catalogue) :
    c.checkReorders.type = "Reorder" ∧
      c.checkReorders.productIds =
        (c.products.filter (fun p => decide (p.quantityInStock ≤ p.reorderLevel))).map
          (fun p => p.id) ∧
      (∀ p ∈ c.products, p.quantityInStock = p.reorderLevel →
        p.id ∈ c.checkReorders.productIds) ∧
      (∀ i ∈ c.checkReorders.productIds,
        ∃ p ∈ c.products, p.id = i ∧ p.quantityInStock ≤ p.reorderLevel) ∧
      (∀ p ∈ c.products, p.reorderLevel < p.quantityInStock →
        p ∉ c.products.filter (fun p => decide (p.quantityInStock ≤ p.reorderLevel))) ∧
      (c.products.Pairwise (fun p q => p.id ≠ q.id) →
        ∀ p ∈ c.products, p.reorderLevel < p.quantityInStock →
          p.id ∉ c.checkReorders.productIds) := by
  have hmem : ∀ i, i ∈ c.checkReorders.productIds ↔
      ∃ p ∈ c.products, p.id = i ∧ p.quantityInStock ≤ p.reorderLevel := by
    intro i
    unfold Catalogue.checkReorders
    simp only [List.mem_map, List.mem_filter, decide_eq_true_eq]
    constructor
    · rintro ⟨p, ⟨hp, hle⟩, e⟩
      exact ⟨p, hp, e, hle⟩
    · rintro ⟨p, hp, e, hle⟩
      exact ⟨p, ⟨hp, hle⟩, e⟩
  refine ⟨rfl, rfl, ?_, ?_, ?_, ?_⟩
  · intro p hp e
    exact (hmem p.id).mpr ⟨p, hp, rfl, le_of_eq e⟩
  · intro i hi
    exact (hmem i).mp hi
  · intro p _ hlt hin
    have hle : p.quantityInStock ≤ p.reorderLevel := of_decide_eq_true (List.mem_filter.mp hin).2
    exact absurd hle (not_le.mpr hlt)
  · intro hdistinct p hp hlt hin
    obtain ⟨q, hq, e, hle⟩ := (hmem p.id).mp hin
    have hqp : q = p := Catalogue.eq_of_id_eq c.products hdistinct q p hq hp e
    rw [hqp] at hle
    exact absurd hle (not_le.mpr hlt)

/-- Witness for C9: the catalogue of the boundary test, A123 (stock 100, level 10) and
B125 (stock 10, level 10): exactly B125 is reported. -/
theorem Catalogue.checkReorders_spec_witness :
    Catalogue.checkReorders
        ⟨"Test Catalogue", [⟨"A123", "Product 1", 100, 10, 10⟩,
          ⟨"B125", "Product 6", 10, 10, 10⟩]⟩ =
        { type := "Reorder", productIds := ["B125"] } ∧
      "B125" ∈ (Catalogue.checkReorders
        ⟨"Test Catalogue", [⟨"A123", "Product 1", 100, 10, 10⟩,
          ⟨"B125", "Product 6", 10, 10, 10⟩]⟩).productIds ∧
      "A123" ∉ (Catalogue.checkReorders
        ⟨"Test Catalogue", [⟨"A123", "Product 1", 100, 10, 10⟩,
          ⟨"B125", "Product 6", 10, 10, 10⟩]⟩).productIds :=
  ⟨by decide,
    (Catalogue.checkReorders_spec _).2.2.1 ⟨"B125", "Product 6", 10, 10, 10⟩ (by decide) rfl,
    (Catalogue.checkReorders_spec _).2.2.2.2.2 (by decide)
      ⟨"A123", "Product 1", 100, 10, 10⟩ (by decide) (by decide)⟩

/-- C10, the code at the input of the test: on the catalogue of the search tests (whose
products with price at most 25 are A123, A124, A125, B123 and B124),
`speSearch` called with the price 25.0 alone returns `undefined`, not a result listing
those five ids:
`return result` is inside the keyword branch. -/
theorem Catalogue.speSearch_price_returns_undefined
    (search : String → String → Except String Int) :
    Catalogue.searchFixture.ids = ["A123", "A124", "A125", "B123", "B124", "B125"] ∧
      (Catalogue.searchFixture.products.filter (fun p => decide (p.price ≤ 25))).map
          (fun p => p.id) = ["A123", "A124", "A125", "B123", "B124"] ∧
      Catalogue.speSearch search Catalogue.searchFixture { price := some (.finite 25) } = .ok none ∧
      Catalogue.speSearch search Catalogue.searchFixture { price := some (.finite 25) } ≠
        .ok (some { type := "Search",
                    productIds := ["A123", "A124", "A125", "B123", "B124"] }) := by
  have hret : Catalogue.speSearch search Catalogue.searchFixture { price := some (.finite 25) } =
      .ok none := rfl
  refine ⟨by decide, by decide, hret, ?_⟩
  rw [hret]
  intro h
  cases h

/-! ## Auxiliary facts on batches and searches -/

theorem filterExcept_of_ok (f : Product → Except String Bool) (g : Product → Bool)
    (l : List Product) (h : ∀ p ∈ l, f p = .ok (g p)) :
    filterExcept f l = .ok (l.filter g) := by
  induction l with
  | nil => rfl
  | cons p ps ih =>
    have hp := h p (List.mem_cons_self p ps)
    have hps := ih (fun q hq => h q (List.mem_cons_of_mem p hq))
    simp only [filterExcept, hp, hps, List.filter_cons]

theorem matchesAt_iff_startsWith (pattern : List Char) (hplain : '.' ∉ pattern) :
    ∀ text : List Char, matchesAt pattern text = true ↔ pattern <+: text := by
  induction pattern with
  | nil => intro text; simp [matchesAt]
  | cons pc pcs ih =>
    intro text
    have hpc : pc ≠ '.' := fun e => hplain (e ▸ List.mem_cons_self _ _)
    have hpcs : '.' ∉ pcs := fun h => hplain (List.mem_cons_of_mem _ h)
    cases text with
    | nil => simp [matchesAt]
    | cons ch chs =>
      simp only [matchesAt, patternCharAccepts, if_neg hpc, Bool.and_eq_true, decide_eq_true_eq,
        ih hpcs chs, List.cons_prefix_cons]

theorem firstMatchIndex_isSome_iff_infix (pattern : List Char) (hplain : '.' ∉ pattern) :
    ∀ text : List Char, (firstMatchIndex pattern text).isSome = true ↔ pattern <:+: text := by
  intro text
  induction text with
  | nil =>
    simp only [firstMatchIndex]
    split
    · rename_i h
      have := (matchesAt_iff_startsWith pattern hplain []).mp h
      simp only [Option.isSome_some, true_iff]
      exact this.isInfix
    · rename_i h
      simp only [Option.isSome_none, Bool.false_eq_true, false_iff]
      intro hin
      apply h
      rw [matchesAt_iff_startsWith pattern hplain]
      rw [List.infix_nil] at hin
      rw [hin]
  | cons ch chs ih =>
    simp only [firstMatchIndex]
    rw [List.infix_cons_iff, ← ih, ← matchesAt_iff_startsWith pattern hplain]
    split
    · rename_i h; simp [h]
    · rename_i h; simp [h]

/-- On a keyword without the wildcard the model is a literal substring search. -/
theorem stringSearch_literal (name keyword : String) (hplain : '.' ∉ keyword.data) :
    (stringSearch name keyword).map (fun i => decide (i ≥ 0)) =
      .ok (decide (keyword.data <:+: name.data)) := by
  have h := firstMatchIndex_isSome_iff_infix keyword.data hplain name.data
  unfold stringSearch
  cases hfirst : firstMatchIndex keyword.data name.data with
  | none =>
    rw [hfirst] at h
    have hnot : ¬ keyword.data <:+: name.data := fun hin => by simpa using h.mpr hin
    simp [Except.map, hnot]
  | some i =>
    rw [hfirst] at h
    have hin : keyword.data <:+: name.data := h.mp rfl
    simp [Except.map, hin]

theorem mem_of_mem_keepFirstOfEachId (l : List Product) :
    ∀ q, q ∈ keepFirstOfEachId l → q ∈ l := by
  induction l with
  | nil => intro q hq; exact hq
  | cons p ps ih =>
    intro q hq
    simp only [keepFirstOfEachId, List.mem_cons, List.mem_filter] at hq
    rcases hq with rfl | ⟨hq, _⟩
    · exact List.mem_cons_self _ _
    · exact List.mem_cons_of_mem _ (ih q hq)

namespace Catalogue

theorem filterWithState_addProduct_fst (ps : List Product) :
    ∀ c : Catalogue, (filterWithState (fun c p => (true, (c.addProduct p).2)) c ps).1 = ps := by
  induction ps with
  | nil => intro c; rfl
  | cons p ps ih =>
    intro c
    simp only [filterWithState, if_true]
    rw [ih]

theorem foldl_count (l : List Product) :
    ∀ n : Nat, l.foldl (fun acc _ => acc + 1) n = n + l.length := by
  induction l with
  | nil => intro n; rfl
  | cons p ps ih =>
    intro n
    simp only [List.foldl_cons, List.length_cons]
    rw [ih]
    omega

theorem filterWithState_addProduct_products (ps : List Product) :
    ∀ c : Catalogue,
      (filterWithState (fun c p => (true, (c.addProduct p).2)) c ps).2.products =
        c.products ++ (keepFirstOfEachId ps).filter (fun q => decide (q.id ∉ c.ids)) := by
  induction ps with
  | nil => intro c; simp [filterWithState, keepFirstOfEachId]
  | cons p ps ih =>
    intro c
    simp only [filterWithState]
    rw [ih, addProduct_products]
    by_cases hfind : c.findProductById p.id = none
    · have hnot : p.id ∉ c.ids := (not_mem_ids_iff c p.id).mpr
        ((findProductById_eq_none_iff c p.id).mp hfind)
      have hids : (c.addProduct p).2.ids = c.ids ++ [p.id] := by
        unfold ids
        rw [addProduct_products, if_pos hfind]
        simp
      rw [if_pos hfind, hids]
      simp only [keepFirstOfEachId, List.filter_cons, hnot, not_false_eq_true, decide_True,
        if_true, List.append_assoc, List.singleton_append, List.filter_filter]
      congr 2
      apply List.filter_congr
      intro q _
      simp only [List.mem_append, List.mem_singleton, not_or, Bool.decide_and, ne_eq]
    · have hmem : p.id ∈ c.ids := by
        by_contra hnot
        exact hfind ((findProductById_eq_none_iff c p.id).mpr
          ((not_mem_ids_iff c p.id).mp hnot))
      have hids : (c.addProduct p).2.ids = c.ids := by
        unfold ids
        rw [addProduct_products, if_neg hfind]
      rw [if_neg hfind, hids]
      simp only [keepFirstOfEachId, List.filter_cons, hmem, not_true_eq_false, decide_False,
        Bool.false_eq_true, if_false, List.filter_filter]
      congr 1
      apply List.filter_congr
      intro q _
      by_cases hq : q.id ∈ c.ids
      · simp [hq]
      · have : q.id ≠ p.id := fun e => hq (e ▸ hmem)
        simp [hq, this]

theorem batchAddProducts_of_no_clash (c : Catalogue) (batch : Batch)
    (hno : ∀ p ∈ batch.products, ∀ q ∈ c.products, p.id ≠ q.id) :
    (c.batchAddProducts batch).1 =
        .ok (batch.products.filter (fun product => decide (product.quantityInStock > 0))).length ∧
      (c.batchAddProducts batch).2.products =
        c.products ++ keepFirstOfEachId
          (batch.products.filter (fun product => decide (product.quantityInStock > 0))) := by
  have hclash : ¬ (batch.products.any
      (fun product => decide (c.findProductById product.id ≠ none)) = true) := by
    rw [List.any_eq_true]
    rintro ⟨p, hp, hfound⟩
    have hne : c.findProductById p.id ≠ none := of_decide_eq_true hfound
    apply hne
    rw [findProductById_eq_none_iff]
    intro q hq e
    exact hno p hp q hq e.symm
  unfold batchAddProducts
  simp only
  rw [if_neg hclash]
  refine ⟨?_, ?_⟩
  · simp only [filterWithState_addProduct_fst, foldl_count, Nat.zero_add]
  · simp only [filterWithState_addProduct_products]
    congr 1
    rw [List.filter_eq_self]
    intro q hq
    have hqb : q ∈ batch.products :=
      (List.mem_filter.mp (mem_of_mem_keepFirstOfEachId _ q hq)).1
    apply decide_eq_true
    rw [not_mem_ids_iff]
    intro r hr e
    exact hno q hqb r hr e.symm

theorem no_clash_of_ok (c : Catalogue) (batch : Batch) (n : Nat)
    (hok : (c.batchAddProducts batch).1 = .ok n) :
    ∀ p ∈ batch.products, ∀ q ∈ c.products, p.id ≠ q.id := by
  intro p hp q hq e
  have hany : batch.products.any
      (fun product => decide (c.findProductById product.id ≠ none)) = true := by
    rw [List.any_eq_true]
    refine ⟨p, hp, decide_eq_true ?_⟩
    rw [Ne, findProductById_eq_none_iff]
    push_neg
    exact ⟨q, hq, e.symm⟩
  unfold batchAddProducts at hok
  simp only at hok
  rw [if_pos hany] at hok
  cases hok

theorem speSearch_keyword_of_ok (search : String → String → Except String Int)
    (c : Catalogue) (k : String) (g : Product → Bool) (hk : k ≠ "")
    (h : ∀ p ∈ c.products, (search p.name k).map (fun i => decide (i ≥ 0)) = .ok (g p)) :
    speSearch search c { price := none, keyword := some k } =
      .ok (some { type := "Search", productIds := (c.products.filter g).map (fun p => p.id) }) := by
  have hfilter := filterExcept_of_ok
    (fun p => (search p.name k).map (fun i => decide (i ≥ 0))) g c.products h
  unfold speSearch
  simp only [truthyNumber, truthyString, hk, ne_eq, not_false_eq_true, decide_True, if_true,
    Bool.false_eq_true, if_false, Option.getD_some, hfilter]

end Catalogue

/-- C11 as stated fails: on the catalogue of the search tests the keyword `s.o` is a
substring of no product name, yet `speSearch` lists B123 and B124, because
`name.search(keyword)` reads the keyword as a regular expression; and the empty keyword,
a substring of every name, is falsy, so the call returns `undefined`. -/
theorem Catalogue.speSearch_keyword_not_literal :
    (Catalogue.searchFixture.products.filter
        (fun p => decide ("s.o".data <:+: p.name.data))).map (fun p => p.id) = [] ∧
      Catalogue.speSearch stringSearch Catalogue.searchFixture { keyword := some "s.o" } =
        .ok (some { type := "Search", productIds := ["B123", "B124"] }) ∧
      Catalogue.speSearch stringSearch Catalogue.searchFixture { keyword := some "s.o" } ≠
        .ok (some { type := "Search",
                    productIds := (Catalogue.searchFixture.products.filter
                      (fun p => decide ("s.o".data <:+: p.name.data))).map (fun p => p.id) }) ∧
      Catalogue.speSearch stringSearch Catalogue.searchFixture { keyword := some "" } ≠
        .ok (some { type := "Search",
                    productIds := (Catalogue.searchFixture.products.filter
                      (fun p => decide ("".data <:+: p.name.data))).map (fun p => p.id) }) := by
  decide

/-- C11, amended. For a non-empty keyword on which `name.search(keyword)` acts on the
product names as a literal substring search (it returns an index `>= 0` exactly when the
name contains the keyword, as it does for a keyword without regular-expression
metacharacters), `speSearch` called with that keyword and no price returns a result
tagged "Search" whose `productIds` is the list of ids, in collection order, of the
products whose name contains the keyword as a case-sensitive substring. -/
theorem Catalogue.speSearch_keyword_literal (search : String → String → Except String Int)
    (c : Catalogue) (k : String) (hk : k ≠ "")
    (hliteral : ∀ p ∈ c.products,
      (search p.name k).map (fun i => decide (i ≥ 0)) = .ok (decide (k.data <:+: p.name.data))) :
    Catalogue.speSearch search c { price := none, keyword := some k } =
      .ok (some { type := "Search",
                  productIds := (c.products.filter
                    (fun p => decide (k.data <:+: p.name.data))).map (fun p => p.id) }) :=
  Catalogue.speSearch_keyword_of_ok search c k _ hk hliteral

/-- Witness for C11: the keyword `sho` of the test finds B123 "shoulder bag" and B124
"shoes". -/
theorem Catalogue.speSearch_keyword_literal_witness :
    Catalogue.speSearch stringSearch Catalogue.searchFixture
        { price := none, keyword := some "sho" } =
      .ok (some { type := "Search",
                  productIds := (Catalogue.searchFixture.products.filter
                    (fun p => decide ("sho".data <:+: p.name.data))).map (fun p => p.id) }) ∧
      (Catalogue.searchFixture.products.filter
        (fun p => decide ("sho".data <:+: p.name.data))).map (fun p => p.id) =
        ["B123", "B124"] :=
  ⟨Catalogue.speSearch_keyword_literal stringSearch Catalogue.searchFixture "sho"
      (by decide) (fun p _ => stringSearch_literal p.name "sho" (by decide)),
    by decide⟩

/-- C12, the code at a criteria record with neither field: on every catalogue `speSearch`
returns `undefined`, not a result tagged "Search" with an empty list: `return result` is
inside the keyword branch. -/
theorem Catalogue.speSearch_no_field_returns_undefined
    (search : String → String → Except String Int) (c : Catalogue) :
    Catalogue.speSearch search c { price := none, keyword := none } = .ok none ∧
      Catalogue.speSearch search c { price := none, keyword := none } ≠
        .ok (some { type := "Search", productIds := [] }) := by
  have hret : Catalogue.speSearch search c { price := none, keyword := none } = .ok none := rfl
  refine ⟨hret, ?_⟩
  rw [hret]
  intro h
  cases h

/-- C13, the code at a batch that repeats an id: on the catalogue of the batch tests (three
products), a batch of two candidates with the id A200, both in stock, makes
`batchAddProducts` return 2 while the collection grows by one product only: the callback
discards the `false` that `addProduct` returns for the second candidate. -/
theorem Catalogue.batchAddProducts_counts_rejected :
    (Catalogue.batchFixture.batchAddProducts
        { products := [⟨"A200", "Product 6", 100, 10, 10⟩,
            ⟨"A200", "Product 7", 100, 10, 25⟩] }).1 = .ok 2 ∧
      (Catalogue.batchFixture.batchAddProducts
        { products := [⟨"A200", "Product 6", 100, 10, 10⟩,
            ⟨"A200", "Product 7", 100, 10, 25⟩] }).2.products.length -
        Catalogue.batchFixture.products.length = 1 ∧
      (Catalogue.batchFixture.batchAddProducts
        { products := [⟨"A200", "Product 6", 100, 10, 10⟩,
            ⟨"A200", "Product 7", 100, 10, 25⟩] }).2.ids =
        ["A123", "A124", "A125", "A200"] := by
  decide

/-! ## Auxiliary facts on `keepFirstOfEachId` -/

theorem keepFirstOfEachId_sublist (l : List Product) : (keepFirstOfEachId l).Sublist l := by
  induction l with
  | nil => exact List.Sublist.refl _
  | cons p ps ih =>
    simp only [keepFirstOfEachId]
    exact List.Sublist.cons₂ p ((List.filter_sublist _).trans ih)

theorem keepFirstOfEachId_pairwise (l : List Product) :
    (keepFirstOfEachId l).Pairwise (fun p q => p.id ≠ q.id) := by
  induction l with
  | nil => exact List.Pairwise.nil
  | cons p ps ih =>
    simp only [keepFirstOfEachId]
    refine List.Pairwise.cons ?_ (ih.sublist (List.filter_sublist _))
    intro q hq e
    exact (of_decide_eq_true (List.mem_filter.mp hq).2) e.symm

theorem mem_keepFirstOfEachId_of_first (l₁ : List Product) :
    ∀ (p : Product) (l₂ : List Product), (∀ q ∈ l₁, q.id ≠ p.id) →
      p ∈ keepFirstOfEachId (l₁ ++ p :: l₂) := by
  induction l₁ with
  | nil =>
    intro p l₂ _
    simp only [List.nil_append, keepFirstOfEachId]
    exact List.mem_cons_self _ _
  | cons a l₁ ih =>
    intro p l₂ h
    simp only [List.cons_append, keepFirstOfEachId]
    refine List.mem_cons_of_mem _ (List.mem_filter.mpr ⟨?_, decide_eq_true ?_⟩)
    · exact ih p l₂ (fun q hq => h q (List.mem_cons_of_mem _ hq))
    · exact (h a (List.mem_cons_self _ _)).symm

theorem exists_mem_keepFirstOfEachId (l : List Product) :
    ∀ p ∈ l, ∃ q ∈ keepFirstOfEachId l, q.id = p.id := by
  induction l with
  | nil => intro p hp; exact absurd hp (List.not_mem_nil _)
  | cons a l ih =>
    intro p hp
    simp only [keepFirstOfEachId]
    by_cases e : p.id = a.id
    · exact ⟨a, List.mem_cons_self _ _, e.symm⟩
    · rcases List.mem_cons.mp hp with rfl | hpl
      · exact absurd rfl e
      · obtain ⟨q, hq, hqid⟩ := ih p hpl
        refine ⟨q, List.mem_cons_of_mem _ (List.mem_filter.mpr ⟨hq, decide_eq_true ?_⟩), hqid⟩
        rw [hqid]
        exact e

/-! ## The claims on batches -/

/-- C14. Batch stock filter: for a batch whose candidates have pairwise distinct ids, none
of them the id of a product of the catalogue, `batchAddProducts` returns the number of
candidates with `quantityInStock > 0`, and afterwards `findProductById` returns
`undefined` for the id of every candidate with `quantityInStock = 0`. -/
theorem Catalogue.batchAddProducts_stock_filter (c : Catalogue) (batch : Batch)
    (hdistinct : batch.products.Pairwise (fun p q => p.id ≠ q.id))
    (hfresh : ∀ p ∈ batch.products, ∀ q ∈ c.products, p.id ≠ q.id) :
    (c.batchAddProducts batch).1 =
        .ok (batch.products.filter (fun p => decide (p.quantityInStock > 0))).length ∧
      ∀ p ∈ batch.products, p.quantityInStock = 0 →
        (c.batchAddProducts batch).2.findProductById p.id = none := by
  obtain ⟨hret, hproducts⟩ := Catalogue.batchAddProducts_of_no_clash c batch hfresh
  refine ⟨hret, ?_⟩
  intro p hp hzero
  rw [Catalogue.findProductById_eq_none_iff, hproducts]
  intro q hq e
  rcases List.mem_append.mp hq with hqc | hqk
  · exact hfresh p hp q hqc e.symm
  · have hqf := List.mem_filter.mp (mem_of_mem_keepFirstOfEachId _ q hqk)
    have hqp : q = p := Catalogue.eq_of_id_eq batch.products hdistinct q p hqf.1 hp e
    have hpos : q.quantityInStock > 0 := of_decide_eq_true hqf.2
    rw [hqp, hzero] at hpos
    exact absurd hpos (lt_irrefl 0)

/-- Witness for C14: the batch of the test, A200 and A201 in stock and A202 with stock 0,
on the catalogue A123, A124, A125: the call returns 2 and A202 is not found. -/
theorem Catalogue.batchAddProducts_stock_filter_witness :
    (Catalogue.batchFixture.batchAddProducts
        { products := [⟨"A200", "Product 6", 100, 10, 10⟩, ⟨"A201", "Product 7", 100, 10, 25⟩,
            ⟨"A202", "Product 8", 0, 10, 10⟩] }).1 = .ok 2 ∧
      (Catalogue.batchFixture.batchAddProducts
        { products := [⟨"A200", "Product 6", 100, 10, 10⟩, ⟨"A201", "Product 7", 100, 10, 25⟩,
            ⟨"A202", "Product 8", 0, 10, 10⟩] }).2.findProductById "A202" = none :=
  ⟨(Catalogue.batchAddProducts_stock_filter Catalogue.batchFixture
      { products := [⟨"A200", "Product 6", 100, 10, 10⟩, ⟨"A201", "Product 7", 100, 10, 25⟩,
          ⟨"A202", "Product 8", 0, 10, 10⟩] } (by decide) (by decide)).1,
    (Catalogue.batchAddProducts_stock_filter Catalogue.batchFixture
      { products := [⟨"A200", "Product 6", 100, 10, 10⟩, ⟨"A201", "Product 7", 100, 10, 25⟩,
          ⟨"A202", "Product 8", 0, 10, 10⟩] } (by decide) (by decide)).2
      ⟨"A202", "Product 8", 0, 10, 10⟩ (by decide) rfl⟩

/-- C15. Batch resulting state: when `batchAddProducts` does not fail, the collection
afterwards is the collection before followed by the candidates with
`quantityInStock > 0`, in batch order, of which only the first with each id is kept: the
added part has pairwise distinct ids, is taken in order from the in-stock candidates and
holds every in-stock candidate that no earlier in-stock candidate shares its id with.
Every in-stock candidate then has its id found by `findProductById`. -/
theorem Catalogue.batchAddProducts_result_state (c : Catalogue) (batch : Batch) (n : Nat)
    (hok : (c.batchAddProducts batch).1 = .ok n) :
    (c.batchAddProducts batch).2.products =
        c.products ++ keepFirstOfEachId
          (batch.products.filter (fun p => decide (p.quantityInStock > 0))) ∧
      (keepFirstOfEachId
        (batch.products.filter (fun p => decide (p.quantityInStock > 0)))).Sublist
          (batch.products.filter (fun p => decide (p.quantityInStock > 0))) ∧
      (keepFirstOfEachId
        (batch.products.filter (fun p => decide (p.quantityInStock > 0)))).Pairwise
          (fun p q => p.id ≠ q.id) ∧
      (∀ l₁ p l₂, batch.products.filter (fun p => decide (p.quantityInStock > 0)) =
          l₁ ++ p :: l₂ → (∀ q ∈ l₁, q.id ≠ p.id) →
        p ∈ keepFirstOfEachId
          (batch.products.filter (fun p => decide (p.quantityInStock > 0)))) ∧
      (∀ p ∈ batch.products, p.quantityInStock > 0 →
        ∃ q, (c.batchAddProducts batch).2.findProductById p.id = some q ∧ q.id = p.id) := by
  have hfresh := Catalogue.no_clash_of_ok c batch n hok
  obtain ⟨_, hproducts⟩ := Catalogue.batchAddProducts_of_no_clash c batch hfresh
  refine ⟨hproducts, keepFirstOfEachId_sublist _, keepFirstOfEachId_pairwise _, ?_, ?_⟩
  · intro l₁ p l₂ hsplit hfirst
    rw [hsplit]
    exact mem_keepFirstOfEachId_of_first l₁ p l₂ hfirst
  · intro p hp hpos
    have hpf : p ∈ batch.products.filter (fun p => decide (p.quantityInStock > 0)) :=
      List.mem_filter.mpr ⟨hp, decide_eq_true hpos⟩
    obtain ⟨q, hq, hqid⟩ := exists_mem_keepFirstOfEachId _ p hpf
    have hne : (c.batchAddProducts batch).2.findProductById p.id ≠ none := by
      rw [Ne, Catalogue.findProductById_eq_none_iff, hproducts]
      push_neg
      exact ⟨q, List.mem_append_right _ hq, hqid⟩
    obtain ⟨r, hr⟩ := Option.ne_none_iff_exists'.mp hne
    exact ⟨r, hr, Catalogue.findProductById_some_id _ _ r hr⟩

/-- Witness for C15: the batch A200, A201, A200 again, A202 out of stock, on the catalogue
A123, A124, A125: A200 and A201 are appended once each, in that order. -/
theorem Catalogue.batchAddProducts_result_state_witness :
    (Catalogue.batchFixture.batchAddProducts
        { products := [⟨"A200", "Product 6", 100, 10, 10⟩, ⟨"A201", "Product 7", 100, 10, 25⟩,
            ⟨"A200", "Product 9", 5, 10, 10⟩, ⟨"A202", "Product 8", 0, 10, 10⟩] }).1 = .ok 3 ∧
      (Catalogue.batchFixture.batchAddProducts
        { products := [⟨"A200", "Product 6", 100, 10, 10⟩, ⟨"A201", "Product 7", 100, 10, 25⟩,
            ⟨"A200", "Product 9", 5, 10, 10⟩, ⟨"A202", "Product 8", 0, 10, 10⟩] }).2.products =
        Catalogue.batchFixture.products ++ keepFirstOfEachId
          ((Batch.products
            { products := [⟨"A200", "Product 6", 100, 10, 10⟩, ⟨"A201", "Product 7", 100, 10, 25⟩,
              ⟨"A200", "Product 9", 5, 10, 10⟩, ⟨"A202", "Product 8", 0, 10, 10⟩] }).filter
            (fun p => decide (p.quantityInStock > 0))) ∧
      (Catalogue.batchFixture.batchAddProducts
        { products := [⟨"A200", "Product 6", 100, 10, 10⟩, ⟨"A201", "Product 7", 100, 10, 25⟩,
            ⟨"A200", "Product 9", 5, 10, 10⟩, ⟨"A202", "Product 8", 0, 10, 10⟩] }).2.ids =
        ["A123", "A124", "A125", "A200", "A201"] :=
  ⟨by decide,
    (Catalogue.batchAddProducts_result_state Catalogue.batchFixture
      { products := [⟨"A200", "Product 6", 100, 10, 10⟩, ⟨"A201", "Product 7", 100, 10, 25⟩,
          ⟨"A200", "Product 9", 5, 10, 10⟩, ⟨"A202", "Product 8", 0, 10, 10⟩] } 3
      (by decide)).1,
    by decide⟩

/-! ## The claims on searches and on lookups after a mutation -/

/-- C16 as stated fails: on the catalogue of the search tests the keyword `.` occurs in
the name of no product, yet `speSearch` returns all six ids, because
`name.search(keyword)` reads `.` as the wildcard of a regular expression. -/
theorem Catalogue.speSearch_unmatched_keyword_listed :
    (∀ p ∈ Catalogue.searchFixture.products, ¬ ".".data <:+: p.name.data) ∧
      Catalogue.speSearch stringSearch Catalogue.searchFixture { keyword := some "." } =
        .ok (some { type := "Search",
                    productIds := ["A123", "A124", "A125", "B123", "B124", "B125"] }) ∧
      Catalogue.speSearch stringSearch Catalogue.searchFixture { keyword := some "." } ≠
        .ok (some { type := "Search", productIds := [] }) := by
  decide

/-- C16, amended. For a non-empty keyword that `name.search(keyword)` finds in the name of
no product of the catalogue (the search returns `-1` on each name), `speSearch` called
with that keyword and no price raises no error and returns a result tagged "Search" with
an empty `productIds` list. -/
theorem Catalogue.speSearch_keyword_no_match (search : String → String → Except String Int)
    (c : Catalogue) (k : String) (hk : k ≠ "")
    (hnone : ∀ p ∈ c.products, search p.name k = .ok (-1)) :
    Catalogue.speSearch search c { price := none, keyword := some k } =
      .ok (some { type := "Search", productIds := [] }) := by
  have h := Catalogue.speSearch_keyword_of_ok search c k (fun _ => false) hk
    (fun p hp => by rw [hnone p hp]; rfl)
  rw [h]
  simp

/-- Witness for C16: the keyword `boots` on the catalogue of the search tests. -/
theorem Catalogue.speSearch_keyword_no_match_witness :
    (∀ p ∈ Catalogue.searchFixture.products, stringSearch p.name "boots" = .ok (-1)) ∧
      Catalogue.speSearch stringSearch Catalogue.searchFixture
          { price := none, keyword := some "boots" } =
        .ok (some { type := "Search", productIds := [] }) :=
  ⟨by decide,
    Catalogue.speSearch_keyword_no_match stringSearch Catalogue.searchFixture "boots"
      (by decide) (by decide)⟩

/-- C17 as stated fails at the input of the test: on the catalogue of the search tests the
keyword `Weight` occurs in no product name, and `speSearch` returns a result tagged
"Search" with an empty list; it does not throw "Bad Batch". -/
theorem Catalogue.speSearch_weight_does_not_throw :
    (∀ p ∈ Catalogue.searchFixture.products, ¬ "Weight".data <:+: p.name.data) ∧
      Catalogue.speSearch stringSearch Catalogue.searchFixture { keyword := some "Weight" } =
        .ok (some { type := "Search", productIds := [] }) ∧
      Catalogue.speSearch stringSearch Catalogue.searchFixture { keyword := some "Weight" } ≠
        .error "Bad Batch" := by
  decide

/-- C17, amended. For a keyword that `name.search(keyword)` finds in the name of no
product of the catalogue (the search returns `-1` on each name), `speSearch` called with
that keyword and no price throws no error, with the message "Bad Batch" or any other. -/
theorem Catalogue.speSearch_keyword_no_match_no_throw
    (search : String → String → Except String Int) (c : Catalogue) (k : String)
    (hnone : ∀ p ∈ c.products, search p.name k = .ok (-1)) :
    ∀ e, Catalogue.speSearch search c { price := none, keyword := some k } ≠ .error e := by
  intro e
  by_cases hk : k = ""
  · subst hk
    have hret : Catalogue.speSearch search c { price := none, keyword := some "" } =
        .ok none := rfl
    rw [hret]
    intro h
    cases h
  · rw [Catalogue.speSearch_keyword_of_ok search c k (fun _ => false) hk
      (fun p hp => by rw [hnone p hp]; rfl)]
    intro h
    cases h

/-- Witness for C17: the keyword `Weight` of the test on the catalogue of the search
tests. -/
theorem Catalogue.speSearch_keyword_no_match_no_throw_witness :
    (∀ p ∈ Catalogue.searchFixture.products, stringSearch p.name "Weight" = .ok (-1)) ∧
      ∀ e, Catalogue.speSearch stringSearch Catalogue.searchFixture
        { price := none, keyword := some "Weight" } ≠ .error e :=
  ⟨by decide,
    Catalogue.speSearch_keyword_no_match_no_throw stringSearch Catalogue.searchFixture
      "Weight" (by decide)⟩

/-- C18. Add/find round trip: when `addProduct(p)` returns `true`, `findProductById(p.id)`
on the catalogue it leaves returns `p`; and after `addProduct(p)`, whatever it returned,
`findProductById(p.id)` does not return `undefined`. -/
theorem Catalogue.find_after_add (c : Catalogue) (p : Product) :
    ((c.addProduct p).1 = true → (c.addProduct p).2.findProductById p.id = some p) ∧
      (c.addProduct p).2.findProductById p.id ≠ none := by
  cases hfind : c.findProductById p.id with
  | none =>
    have hadd : c.addProduct p = (true, { c with products := c.products ++ [p] }) := by
      unfold Catalogue.addProduct
      simp [hfind]
    have hfound : (c.addProduct p).2.findProductById p.id = some p := by
      rw [hadd, Catalogue.findProductById_eq_some_iff]
      exact ⟨rfl, c.products, [], rfl, (Catalogue.findProductById_eq_none_iff c p.id).mp hfind⟩
    exact ⟨fun _ => hfound, by rw [hfound]; exact Option.some_ne_none p⟩
  | some q =>
    have hadd : c.addProduct p = (false, c) := by
      unfold Catalogue.addProduct
      simp [hfind]
    rw [hadd]
    refine ⟨fun h => (by cases h), ?_⟩
    show c.findProductById p.id ≠ none
    rw [hfind]
    exact Option.some_ne_none q

/-- Witness for C18: adding B123 to the catalogue A123, A124, A125 and looking it up. -/
theorem Catalogue.find_after_add_witness :
    (Catalogue.batchFixture.addProduct ⟨"B123", "Product 4", 10, 20, 10⟩).1 = true ∧
      (Catalogue.batchFixture.addProduct ⟨"B123", "Product 4", 10, 20, 10⟩).2.findProductById
        "B123" = some ⟨"B123", "Product 4", 10, 20, 10⟩ :=
  ⟨by decide,
    (Catalogue.find_after_add Catalogue.batchFixture ⟨"B123", "Product 4", 10, 20, 10⟩).1
      (by decide)⟩

/-- C19 as stated fails at the price bound 0: `0` is falsy, so on the catalogue of the
search tests `speSearch` called with price 0 and keyword `sho` runs the keyword search and
returns B123 and B124, while called with price 0 alone it returns `undefined`. The same
happens at the price bound `NaN`, the other falsy number. -/
theorem Catalogue.speSearch_zero_price_consults_keyword :
    Catalogue.speSearch stringSearch Catalogue.searchFixture
        { price := some (.finite 0), keyword := some "sho" } =
        .ok (some { type := "Search", productIds := ["B123", "B124"] }) ∧
      Catalogue.speSearch stringSearch Catalogue.searchFixture
        { price := some (.finite 0), keyword := none } = .ok none ∧
      Catalogue.speSearch stringSearch Catalogue.searchFixture
          { price := some (.finite 0), keyword := some "sho" } ≠
        Catalogue.speSearch stringSearch Catalogue.searchFixture
          { price := some (.finite 0), keyword := none } ∧
      Catalogue.speSearch stringSearch Catalogue.searchFixture
          { price := some .nan, keyword := some "sho" } ≠
        Catalogue.speSearch stringSearch Catalogue.searchFixture
          { price := some .nan, keyword := none } := by
  decide

/-- C19, amended. Search precedence: for every price bound that is a number other than 0
and `NaN` (the two infinities included) and every keyword, `speSearch` called with both
the price and the keyword returns what it returns when called with the price alone: the
keyword plays no part. For the other bounds, 0 and `NaN`, the price plays no part: the
call returns what it returns with the price left out, and that is where the keyword is
consulted. -/
theorem Catalogue.speSearch_price_precedence (search : String → String → Except String Int)
    (c : Catalogue) (b : JsNumber) (k : String) (hzero : b ≠ .finite 0) (hnan : b ≠ .nan) :
    Catalogue.speSearch search c { price := some b, keyword := some k } =
        Catalogue.speSearch search c { price := some b, keyword := none } ∧
      (∀ kw : Option String,
        Catalogue.speSearch search c { price := some (.finite 0), keyword := kw } =
            Catalogue.speSearch search c { price := none, keyword := kw } ∧
          Catalogue.speSearch search c { price := some .nan, keyword := kw } =
            Catalogue.speSearch search c { price := none, keyword := kw }) := by
  have htruthy : truthyNumber (some b) = true := by
    cases b with
    | nan => exact absurd rfl hnan
    | negInfinity => rfl
    | posInfinity => rfl
    | finite q =>
      have hq : q ≠ 0 := fun e => hzero (by rw [e])
      simp [truthyNumber, hq]
  refine ⟨?_, fun kw => ⟨rfl, rfl⟩⟩
  unfold Catalogue.speSearch
  simp only [htruthy, if_true]

/-- Witness for C19: the price bound 25 with the keyword `sho`. -/
theorem Catalogue.speSearch_price_precedence_witness :
    Catalogue.speSearch stringSearch Catalogue.searchFixture
        { price := some (.finite 25), keyword := some "sho" } =
      Catalogue.speSearch stringSearch Catalogue.searchFixture
        { price := some (.finite 25), keyword := none } :=
  (Catalogue.speSearch_price_precedence stringSearch Catalogue.searchFixture (.finite 25) "sho"
    (by decide) (by decide)).1

/-- C20. Lookups of other ids are untouched by one mutation: for ids `j ≠ i`,
`findProductById(j)` returns the same before and after `removeProductById(i)`, and the
same before and after `addProduct(p)` for a product `p` with id `i`. -/
theorem Catalogue.find_other_id_unchanged (c : Catalogue) (i j : String) (p : Product)
    (hne : j ≠ i) (hp : p.id = i) :
    (c.removeProductById i).2.findProductById j = c.findProductById j ∧
      (c.addProduct p).2.findProductById j = c.findProductById j := by
  constructor
  · unfold Catalogue.removeProductById
    simp only
    split
    · unfold Catalogue.findProductById
      simp only [List.find?_filter]
      congr 1
      funext q
      by_cases hq : j = q.id
      · have : q.id ≠ i := fun e => hne (hq.trans e)
        simp [hq, this]
      · simp [hq]
    · rfl
  · unfold Catalogue.findProductById
    rw [Catalogue.addProduct_products]
    split
    · rw [List.find?_append]
      have : j ≠ p.id := fun e => hne (e.trans hp)
      simp [this]
    · rfl

/-- Witness for C20: looking up A124 before and after removing A123, and before and after
adding a product with the id A123, on the catalogue A123, A124, A125. -/
theorem Catalogue.find_other_id_unchanged_witness :
    (Catalogue.batchFixture.removeProductById "A123").2.findProductById "A124" =
        Catalogue.batchFixture.findProductById "A124" ∧
      (Catalogue.batchFixture.addProduct ⟨"A123", "Product 9", 0, 10, 10⟩).2.findProductById
        "A124" = Catalogue.batchFixture.findProductById "A124" :=
  Catalogue.find_other_id_unchanged Catalogue.batchFixture "A123" "A124"
    ⟨"A123", "Product 9", 0, 10, 10⟩ (by decide) rfl
